import Mathlib

/-
Verification of the events catalog and registration engine.

The development shallowly embeds the two business-logic modules of the
repository — the DynamoDB service layer (`src/services/dynamodb.ts`) and the
Lambda request handlers (`src/handlers/events.ts`) — as pure Lean functions.

Modelling conventions:
* The DynamoDB table is a `Store`: the list of event METADATA records plus the
  list of REGISTRATION records.  Within each event partition the registration
  records are kept in sort-key order (`REGISTRATION#<registrationId>`, i.e.
  ordered by `registrationId`), matching the order a DynamoDB Query returns
  them in; `insertReg` maintains that order on `PutItem`.
* A DynamoDB Query or Scan applies `Limit` BEFORE `FilterExpression`
  (items are counted against the limit as they are read, the filter runs on
  the already-limited batch).  `checkDuplicateRegistration` embeds exactly
  that: `take 1` first, email filter second.
* JavaScript numbers that the code treats as integers (`capacity.max`,
  `capacity.registered`, `groupSize`, `pricing`) are embedded as `Int`.
  Non-number / non-integer request bodies are rejected by the handler's
  `typeof`/`Number.isInteger` checks and are not representable in the model.
* Effectful code is embedded by explicit state passing.  `registerForEvent`
  additionally takes the store snapshot seen by its conditional update
  (`storeCAS`) separately from the snapshot seen by its initial read
  (`store0`), so that a concurrent writer between the two suspension points is
  expressible, and a flag `putOk` saying whether the final `PutItemCommand`
  succeeds.  The sequential handler instantiates `storeCAS := store0` and
  `putOk := true`.
* The base64 encoding/decoding of pagination tokens is a bijection and is
  modelled as the identity on the opaque key string.
* Every store round trip the client code performs is recorded in a
  `List StoreOp` trace, so "no store access" and "no retry" are provable.
-/

namespace EventsApi

/-! String helpers (JavaScript semantics) -/

/-- JavaScript regex `\s` restricted to its ASCII members (space, tab,
newline, vertical tab, form feed, carriage return).  The Unicode space
characters also matched by `\s` play no role in any claim. -/
def jsSpace (c : Char) : Bool :=
  c == ' ' || c == '\t' || c == '\n' || c == '\x0b' || c == '\x0c' || c == '\r'

/-- JavaScript `String.prototype.trim`: strip whitespace from both ends. -/
def jsTrim (s : String) : String :=
  ⟨((s.data.dropWhile jsSpace).reverse.dropWhile jsSpace).reverse⟩

/-- A character admitted by the regex character class `[^\s@]`. -/
def emailChar (c : Char) : Bool :=
  !jsSpace c && c != '@'

/-- Definition `validateEmail` from `src/handlers/events.ts`: the test
`/^[^\s@]+@[^\s@]+\.[^\s@]+$/.test(email)`.  A string matches iff it splits as
`local@domain` where `local` is a nonempty run of `[^\s@]`, `domain` is a
nonempty run of `[^\s@]`, and `domain` contains a dot that is neither its
first nor its last character (the dot of the regex, with `[^\s@]+` on both
sides; both classes admit further dots). -/
def validateEmail (email : String) : Bool :=
  let cs := email.data
  let lpart := cs.takeWhile (fun c => c != '@')
  match cs.dropWhile (fun c => c != '@') with
  | [] => false
  | _ :: domain =>
      !lpart.isEmpty && lpart.all emailChar &&
      !domain.isEmpty && domain.all emailChar &&
      ((domain.drop 1).dropLast).contains '.'

/-- Boolean test that `needle` occurs at the head of `hay`. -/
def leadMatch : List Char → List Char → Bool
  | [], _ => true
  | _ :: _, [] => false
  | n :: ns, h :: hs => n == h && leadMatch ns hs

/-- Boolean substring test on character lists (JavaScript `String.includes`). -/
def listIncludes (needle : List Char) : List Char → Bool
  | [] => leadMatch needle []
  | c :: hs => leadMatch needle (c :: hs) || listIncludes needle hs

/-- JavaScript `hay.includes(needle)`. -/
def strIncludes (hay needle : String) : Bool :=
  listIncludes needle.data hay.data

/-- Strict lexicographic order on character lists, used for the sort-key order
of registration records within a partition. -/
def ltChars : List Char → List Char → Bool
  | [], [] => false
  | [], _ :: _ => true
  | _ :: _, [] => false
  | a :: as, b :: bs =>
      if a < b then true else if b < a then false else ltChars as bs

/-- Strict order on registration ids, i.e. on the sort keys
`REGISTRATION#<registrationId>` (the constant prefix cancels). -/
def ltStr (a b : String) : Bool :=
  ltChars a.data b.data

/-! Data model (`src/services/dynamodb.ts` interfaces) -/

/-- The `Event.category` object. -/
structure Category where
  id : String
  name : String
  color : String
deriving DecidableEq

/-- The `Event.capacity` object. -/
structure Capacity where
  max : Int
  registered : Int
deriving DecidableEq

/-- The `Event.pricing` object. -/
structure Pricing where
  individual : Int
deriving DecidableEq

/-- The `Event.location.type` field: `"physical" | "online"`. -/
inductive LocationType where
  | physical
  | online
deriving DecidableEq

/-- The `Event.location` object. -/
structure Location where
  type : LocationType
  address : Option String
deriving DecidableEq

/-- The `Event` interface: an event METADATA record, with `id` recovered from
the partition key `EVENT#<id>`. -/
structure Event where
  id : String
  title : String
  description : String
  date : String
  category : Category
  capacity : Capacity
  pricing : Pricing
  location : Location
deriving DecidableEq

/-- The `Registration` interface: a REGISTRATION record, with
`registrationId` recovered from the sort key `REGISTRATION#<registrationId>`. -/
structure Registration where
  registrationId : String
  attendeeEmail : String
  attendeeName : String
  groupSize : Int
  registeredAt : String
deriving DecidableEq

/-- The DynamoDB table.  `events` holds the METADATA records; `regs` holds the
REGISTRATION records tagged by their partition's event id, with each
partition's records in sort-key order (ordered by `registrationId`). -/
structure Store where
  events : List Event
  regs : List (String × Registration)
deriving DecidableEq

/-- One client round trip to the store, for frame and retry reasoning. -/
inductive StoreOp where
  | get (eventId : String)
  | query (eventId : String)
  | condUpdate (eventId : String)
  | put (eventId registrationId : String)
deriving DecidableEq

/-! Service layer (`src/services/dynamodb.ts`) -/

/-- Function `getEvent`: the `GetItemCommand` on key `(EVENT#eventId, METADATA)`,
returning the event or `null`. -/
def getEvent (store : Store) (eventId : String) : Option Event :=
  store.events.find? (fun e => e.id == eventId)

/-- The items a Query with `PK = EVENT#eventId AND begins_with(SK,
REGISTRATION#)` ranges over: the event's registration records in sort-key
order. -/
def regsInPartition (regs : List (String × Registration)) (eventId : String) :
    List Registration :=
  (regs.filter (fun p => p.1 == eventId)).map (fun p => p.2)

/-- Function `checkDuplicateRegistration`: the `QueryCommand` with `Limit: 1` and
`FilterExpression: attendeeEmail = :email`.  DynamoDB applies `Limit` before
the filter, so only the first registration record of the partition is
examined. -/
def checkDuplicateRegistration (store : Store) (eventId email : String) :
    Bool :=
  let examined := (regsInPartition store.regs eventId).take 1
  (examined.filter (fun r => r.attendeeEmail == email)).length > 0

/-- The `PutItem` of a registration record: inserts at its sort-key position
within the event's partition. -/
def insertReg : List (String × Registration) → String → Registration →
    List (String × Registration)
  | [], eventId, reg => [(eventId, reg)]
  | (e, r) :: rest, eventId, reg =>
      if e == eventId && ltStr reg.registrationId r.registrationId then
        (eventId, reg) :: (e, r) :: rest
      else
        (e, r) :: insertReg rest eventId reg

/-- The `PutItemCommand` writing a registration record. -/
def putRegistration (store : Store) (eventId : String) (reg : Registration) :
    Store :=
  { store with regs := insertReg store.regs eventId reg }

/-- Replace the METADATA record whose id matches. -/
def setEventItem (store : Store) (ev : Event) : Store :=
  { store with events := store.events.map (fun e => if e.id == ev.id then ev else e) }

/-- The store semantics of the `UpdateItemCommand` of `registerForEvent`:
`SET capacity.registered = :newRegistered` guarded by
`ConditionExpression: capacity.registered = :currentRegistered`, returning
`ALL_NEW` attributes.  `none` is the `ConditionalCheckFailedException` (also
raised when the item is absent at write time). -/
def condUpdateCapacity (store : Store) (eventId : String)
    (currentRegistered newRegistered : Int) : Option (Store × Event) :=
  match getEvent store eventId with
  | none => none
  | some ev =>
      if ev.capacity.registered = currentRegistered then
        let ev2 := { ev with capacity := { ev.capacity with registered := newRegistered } }
        some (setEventItem store ev2, ev2)
      else
        none

/-! listEvents (`src/services/dynamodb.ts`) -/

/-- Parameters `ListEventsParams`.  The `status` field stays a raw string: the handler forwards the
query parameter unvalidated and `listEvents` compares it against
`"available"` / `"full"`, any other value filtering nothing. -/
structure ListEventsParams where
  category : Option String
  search : Option String
  status : Option String
  limit : Option Nat
  lastKey : Option String
deriving DecidableEq

/-- What the `ScanCommand` (FilterExpression `SK = :metadata`, `Limit:
limit * 2`, optional `ExclusiveStartKey`) delivered: the METADATA records
read, in scan order, and `LastEvaluatedKey` when the scan stopped early.
The scan is the model's input: its outcome depends on the table and the
resume point. -/
structure ScanResult where
  items : List Event
  lastKey : Option String
deriving DecidableEq

/-- Return shape of `listEvents`. -/
structure ListResult where
  events : List Event
  total : Nat
  lastKey : Option String
deriving DecidableEq

/-- Source line `if (params.category) events = events.filter(e => e.category.id ===
params.category)`.  An empty string is falsy in JavaScript, so it filters
nothing. -/
def filterCategory (category : Option String) (events : List Event) :
    List Event :=
  match category with
  | none => events
  | some c => if c == "" then events else events.filter (fun e => e.category.id == c)

/-- Source branch `if (params.search) { ... }`: case-insensitive substring match over title
and description.  An empty string is falsy and filters nothing. -/
def filterSearch (search : Option String) (events : List Event) : List Event :=
  match search with
  | none => events
  | some s =>
      if s == "" then events
      else
        let searchLower := s.toLower
        events.filter (fun e =>
          strIncludes e.title.toLower searchLower ||
          strIncludes e.description.toLower searchLower)

/-- Source branch `if (params.status) { ... }`: `"available"` keeps `registered < max`,
`"full"` keeps `registered >= max`, anything else filters nothing. -/
def filterStatus (status : Option String) (events : List Event) : List Event :=
  match status with
  | none => events
  | some st =>
      if st == "available" then
        events.filter (fun e => decide (e.capacity.registered < e.capacity.max))
      else if st == "full" then
        events.filter (fun e => decide (e.capacity.registered ≥ e.capacity.max))
      else events

/-- The three in-memory filter passes of `listEvents`, in source order. -/
def applyFilters (params : ListEventsParams) (events : List Event) :
    List Event :=
  filterStatus params.status (filterSearch params.search (filterCategory params.category events))

/-- The computation `Math.min(params.limit || 25, 100)` (`0` is falsy and yields the
default). -/
def effectiveLimit (limit : Option Nat) : Nat :=
  min (match limit with | none => 25 | some 0 => 25 | some l => l) 100

/-- Function `listEvents`: filter the scanned buffer, slice to `limit`, report the
slice length as `total`, and return a continuation token from
`hasMore && result.LastEvaluatedKey` (token encoding modelled as the
identity). -/
def listEvents (params : ListEventsParams) (scan : ScanResult) : ListResult :=
  let limit := effectiveLimit params.limit
  let events := applyFilters params scan.items
  let limitedEvents := events.take limit
  let hasMore := decide (events.length > limit) || scan.lastKey.isSome
  { events := limitedEvents
    total := limitedEvents.length
    lastKey := if hasMore then scan.lastKey else none }

/-! registerForEvent (`src/services/dynamodb.ts`) -/

/-- Result of `registerForEvent`.  `errNotFound` and `errCapacity` are the
thrown `Error("EVENT_NOT_FOUND")` / `Error("INSUFFICIENT_CAPACITY")` (the
latter both for the pre-check and for a failed conditional update);
`errPut` is an error propagating out of the final `PutItemCommand`. -/
inductive RegOutcome where
  | ok (reg : Registration) (ev : Event)
  | errNotFound
  | errCapacity
  | errPut
deriving DecidableEq

/-- Function `registerForEvent`.  Here `store0` is the store snapshot its `getEvent` read
runs against; `storeCAS` is the snapshot current when the conditional update
executes (equal to `store0` when no concurrent writer intervened — the
function performs no write before that point); `putOk` says whether the final
registration `PutItemCommand` succeeds.  Returns the outcome, the resulting
store, and the trace of store round trips attempted. -/
def registerForEvent (registrationId registeredAt : String)
    (store0 storeCAS : Store) (putOk : Bool)
    (eventId attendeeEmail attendeeName : String) (groupSize : Int) :
    RegOutcome × Store × List StoreOp :=
  match getEvent store0 eventId with
  | none => (.errNotFound, storeCAS, [.get eventId])
  | some event =>
      let newRegistered := event.capacity.registered + groupSize
      if newRegistered > event.capacity.max then
        (.errCapacity, storeCAS, [.get eventId])
      else
        match condUpdateCapacity storeCAS eventId event.capacity.registered newRegistered with
        | none =>
            (.errCapacity, storeCAS, [.get eventId, .condUpdate eventId])
        | some (store1, updatedEvent) =>
            if putOk then
              let reg : Registration :=
                ⟨registrationId, attendeeEmail, attendeeName, groupSize, registeredAt⟩
              (.ok reg updatedEvent, putRegistration store1 eventId reg,
                [.get eventId, .condUpdate eventId, .put eventId registrationId])
            else
              (.errPut, store1,
                [.get eventId, .condUpdate eventId, .put eventId registrationId])

/-! Register handler (`src/handlers/events.ts`) -/

/-- The parsed JSON body of a register request.  `groupSize = none` takes the
destructuring default `1`. -/
structure RegisterBody where
  attendeeEmail : Option String
  attendeeName : Option String
  groupSize : Option Int
deriving DecidableEq

/-- JavaScript truth test `!x` for an optional string: `undefined` and the
empty string are falsy. -/
def falsy : Option String → Bool
  | none => true
  | some s => s == ""

/-- Transport result of `registerEventHandler`: either the success payload
(status 200) or `errorResponse(status, code, message)` (messages omitted —
the machine codes are the stable contract). -/
inductive HResult where
  | ok (registrationId : String) (ev : Event)
      (attendeeEmail attendeeName : String) (groupSize : Int)
      (registeredAt : String)
  | err (status : Nat) (code : String)
deriving DecidableEq

/-- Returns `true` iff the handler answered with the success payload. -/
def HResult.isOk : HResult → Bool
  | .ok _ _ _ _ _ _ => true
  | .err _ _ => false

/-- Function `registerEventHandler`, sequential (no interference, the registration put
succeeds).  `registrationId`/`registeredAt` stand for the fresh
`reg_${Date.now()}_...` id and timestamp generated inside `registerForEvent`.
Check order, as in the source: event id present, required fields, email
shape, name nonempty after trim, group size, event existence, duplicate
registration, event full, then `registerForEvent` with its thrown
`INSUFFICIENT_CAPACITY` mapped to a 400 and any other propagated error to a
500 `INTERNAL_ERROR`. -/
def registerEventHandler (registrationId registeredAt : String) (store : Store)
    (eventId? : Option String) (body : RegisterBody) :
    HResult × Store × List StoreOp :=
  match eventId? with
  | none => (.err 400 "INVALID_REQUEST", store, [])
  | some eventId =>
      if falsy body.attendeeEmail || falsy body.attendeeName then
        (.err 400 "INVALID_REQUEST", store, [])
      else
        let attendeeEmail := body.attendeeEmail.getD ""
        let attendeeName := body.attendeeName.getD ""
        if !validateEmail attendeeEmail then
          (.err 400 "INVALID_EMAIL", store, [])
        else if jsTrim attendeeName == "" then
          (.err 400 "INVALID_REQUEST", store, [])
        else
          let groupSize := (body.groupSize).getD 1
          if groupSize < 1 then
            (.err 400 "INVALID_REQUEST", store, [])
          else
            match getEvent store eventId with
            | none => (.err 404 "EVENT_NOT_FOUND", store, [.get eventId])
            | some existingEvent =>
                if checkDuplicateRegistration store eventId attendeeEmail then
                  (.err 400 "DUPLICATE_REGISTRATION", store,
                    [.get eventId, .query eventId])
                else if existingEvent.capacity.registered ≥ existingEvent.capacity.max then
                  (.err 400 "EVENT_FULL", store, [.get eventId, .query eventId])
                else
                  match registerForEvent registrationId registeredAt store store true
                      eventId attendeeEmail attendeeName groupSize with
                  | (.ok reg ev, store2, ops2) =>
                      (.ok reg.registrationId ev reg.attendeeEmail reg.attendeeName
                        reg.groupSize reg.registeredAt, store2,
                        [.get eventId, .query eventId] ++ ops2)
                  | (.errCapacity, store2, ops2) =>
                      (.err 400 "INSUFFICIENT_CAPACITY", store2,
                        [.get eventId, .query eventId] ++ ops2)
                  | (.errNotFound, store2, ops2) =>
                      (.err 500 "INTERNAL_ERROR", store2,
                        [.get eventId, .query eventId] ++ ops2)
                  | (.errPut, store2, ops2) =>
                      (.err 500 "INTERNAL_ERROR", store2,
                        [.get eventId, .query eventId] ++ ops2)

/-! Concurrent registration attempts on one event (claim C1)

One registration attempt on a fixed event is, at the store, two suspension
points touching `capacity.registered`: the `getEvent` read (after which the
attempt either dies on `newRegistered > max` or holds the read value `R0`),
and the conditional update guarded by `registered == R0`.  The subsequent
registration `PutItem` never touches the capacity field.  `RegStep` is the
interleaving of any number of such attempts, each step one suspension point
of one attempt; `maxCap` is the event's immutable `capacity.max`. -/

/-- An attempt that has read `r0` and passed the capacity pre-check, waiting
to issue its conditional update. -/
structure PendingReg where
  groupSize : Int
  r0 : Int
deriving DecidableEq

/-- The event's mutable capacity field plus the in-flight attempts. -/
structure CapState where
  registered : Int
  pending : List PendingReg
deriving DecidableEq

/-- One interleaved suspension-point step.  `read`: an attempt performs its
`getEvent`, reads the current `registered`, and passes the pre-check
`registered + g ≤ maxCap` (an attempt failing it throws without writing and
changes nothing).  `casOk`: a pending attempt's conditional update finds the
guard `registered = r0` true and writes `r0 + groupSize`.  `casFail`: the
guard is false (`ConditionalCheckFailedException`), the attempt terminates
with no write. -/
inductive RegStep (maxCap : Int) : CapState → CapState → Prop
  | read (s : CapState) (g : Int) (h : s.registered + g ≤ maxCap) :
      RegStep maxCap s ⟨s.registered, ⟨g, s.registered⟩ :: s.pending⟩
  | casOk (s : CapState) (p : PendingReg) (hmem : p ∈ s.pending)
      (hguard : s.registered = p.r0) :
      RegStep maxCap s ⟨p.r0 + p.groupSize, s.pending.erase p⟩
  | casFail (s : CapState) (p : PendingReg) (hmem : p ∈ s.pending)
      (hguard : s.registered ≠ p.r0) :
      RegStep maxCap s ⟨s.registered, s.pending.erase p⟩

/-- Inductive invariant: the capacity bound holds and every in-flight attempt
would keep it. -/
def capacityInvariant (maxCap : Int) (s : CapState) : Prop :=
  s.registered ≤ maxCap ∧ ∀ p ∈ s.pending, p.r0 + p.groupSize ≤ maxCap

/-! Helper lemmas -/

lemma find_map_set (l : List Event) (eid : String) (ev1 ev2 : Event)
    (hid : ev2.id = ev1.id)
    (h : l.find? (fun e => e.id == eid) = some ev1) :
    (l.map (fun e => if e.id == ev2.id then ev2 else e)).find?
      (fun e => e.id == eid) = some ev2 := by
  have hev1 : ev1.id = eid := by simpa using List.find?_some h
  have hev2 : ev2.id = eid := hid.trans hev1
  induction l with
  | nil => simp at h
  | cons x xs ih =>
      by_cases hx : x.id = eid
      · have hhead : (if x.id == ev2.id then ev2 else x) = ev2 := by
          simp [hx, hev2]
        simp only [List.map_cons, hhead]
        exact List.find?_cons_of_pos _ (by simp [hev2])
      · have h' : xs.find? (fun e => e.id == eid) = some ev1 := by
          rw [List.find?_cons_of_neg _ (by simp [hx])] at h; exact h
        have hhead : (if x.id == ev2.id then ev2 else x) = x := by
          simp [hev2, hx]
        simp only [List.map_cons, hhead]
        rw [List.find?_cons_of_neg _ (by simp [hx])]
        exact ih h'

lemma getEvent_setEventItem (store : Store) (eid : String) (ev1 ev2 : Event)
    (hid : ev2.id = ev1.id) (h : getEvent store eid = some ev1) :
    getEvent (setEventItem store ev2) eid = some ev2 :=
  find_map_set store.events eid ev1 ev2 hid h

lemma regsInPartition_insertReg_nil
    (regs : List (String × Registration)) (eid : String) (reg : Registration)
    (h : regsInPartition regs eid = []) :
    regsInPartition (insertReg regs eid reg) eid = [reg] := by
  induction regs with
  | nil => simp [insertReg, regsInPartition]
  | cons p rest ih =>
      obtain ⟨e, r⟩ := p
      cases hb : (e == eid) with
      | true =>
          exfalso
          simp [regsInPartition, List.filter_cons, hb] at h
      | false =>
          have h' : regsInPartition rest eid = [] := by
            simpa [regsInPartition, List.filter_cons, hb] using h
          have hins : insertReg ((e, r) :: rest) eid reg =
              (e, r) :: insertReg rest eid reg := by
            simp [insertReg, hb]
          rw [hins]
          simpa [regsInPartition, List.filter_cons, hb] using ih h'

lemma regStep_preserves {maxCap : Int} {s t : CapState}
    (hstep : RegStep maxCap s t) (hinv : capacityInvariant maxCap s) :
    capacityInvariant maxCap t := by
  cases hstep with
  | read g hg =>
      refine ⟨hinv.1, ?_⟩
      intro p hp
      rcases List.mem_cons.mp hp with h | h
      · subst h; simpa using hg
      · exact hinv.2 p h
  | casOk p hmem hguard =>
      refine ⟨hinv.2 p hmem, ?_⟩
      intro q hq
      exact hinv.2 q (List.mem_of_mem_erase hq)
  | casFail p hmem hguard =>
      exact ⟨hinv.1, fun q hq => hinv.2 q (List.mem_of_mem_erase hq)⟩

/-! Claim theorems -/

/-- C1: for every event and every interleaving of registration attempts — each
attempt's read of `registered`, capacity pre-check, and conditional update
being separate steps — every reachable capacity state satisfies
`registered ≤ max`: the guarded conditional update can never raise
`registered` above `max`. -/
theorem no_oversell (maxCap : Int) (s0 s : CapState)
    (h0 : s0.registered ≤ maxCap) (hp : s0.pending = [])
    (hreach : Relation.ReflTransGen (RegStep maxCap) s0 s) :
    s.registered ≤ maxCap := by
  have hinv : capacityInvariant maxCap s := by
    induction hreach with
    | refl => exact ⟨h0, by simp [hp]⟩
    | tail hab hbc ih => exact regStep_preserves hbc ih
  exact hinv.1

/-- Witness for C1: an event with one free slot, two interleaved attempts for
it; the first one's conditional update lands, the second one's fails; the
final state respects the capacity bound. -/
theorem no_oversell_witness :
    (⟨1, []⟩ : CapState).registered ≤ 1 := by
  have h1 : RegStep 1 ⟨0, []⟩ ⟨0, [⟨1, 0⟩]⟩ :=
    @RegStep.read 1 ⟨0, []⟩ 1 (by decide)
  have h1b : RegStep 1 ⟨0, [⟨1, 0⟩]⟩ ⟨0, [⟨1, 0⟩, ⟨1, 0⟩]⟩ :=
    @RegStep.read 1 ⟨0, [⟨1, 0⟩]⟩ 1 (by decide)
  have h2 : RegStep 1 ⟨0, [⟨1, 0⟩, ⟨1, 0⟩]⟩ ⟨1, [⟨1, 0⟩]⟩ :=
    @RegStep.casOk 1 ⟨0, [⟨1, 0⟩, ⟨1, 0⟩]⟩ ⟨1, 0⟩ (by simp) (by decide)
  have h3 : RegStep 1 ⟨1, [⟨1, 0⟩]⟩ ⟨1, []⟩ :=
    @RegStep.casFail 1 ⟨1, [⟨1, 0⟩]⟩ ⟨1, 0⟩ (by simp) (by decide)
  exact no_oversell 1 ⟨0, []⟩ ⟨1, []⟩ (by decide) rfl
    (Relation.ReflTransGen.head h1 (Relation.ReflTransGen.head h1b
      (Relation.ReflTransGen.head h2 (Relation.ReflTransGen.single h3))))

/-! Concrete fixtures for counterexamples and witnesses -/

/-- The empty table. -/
def emptyStore : Store := ⟨[], []⟩

/-- C2 as stated is false on the code: the handler validates the email shape
before looking the event up, so a nonexistent event together with a malformed
email yields `INVALID_EMAIL`, not `EVENT_NOT_FOUND`. -/
theorem email_check_precedes_existence_cx :
    getEvent emptyStore "ghost" = none ∧
    (registerEventHandler "r" "t" emptyStore (some "ghost")
      ⟨some "not-an-email", some "Jane Doe", none⟩).1 = .err 400 "INVALID_EMAIL" ∧
    (registerEventHandler "r" "t" emptyStore (some "ghost")
      ⟨some "not-an-email", some "Jane Doe", none⟩).1 ≠ .err 404 "EVENT_NOT_FOUND" := by
  refine ⟨rfl, by decide, by decide⟩

/-- C2 (amended): input validation runs before the event-existence check; for
a request with both required fields present and a malformed email, the
outcome is `INVALID_EMAIL` even when the event does not exist. -/
theorem invalid_email_wins_over_missing_event
    (registrationId registeredAt : String) (store : Store)
    (eid email name : String) (gs : Option Int)
    (hemail : email ≠ "") (hname : name ≠ "")
    (hbad : validateEmail email = false)
    (_hnoev : getEvent store eid = none) :
    (registerEventHandler registrationId registeredAt store (some eid)
      ⟨some email, some name, gs⟩).1 = .err 400 "INVALID_EMAIL" := by
  have hbe : (email == "") = false := beq_eq_false_iff_ne.mpr hemail
  have hbn : (name == "") = false := beq_eq_false_iff_ne.mpr hname
  simp [registerEventHandler, falsy, hbe, hbn, hbad]

/-- Witness for the amended C2 at a concrete input. -/
theorem invalid_email_wins_over_missing_event_witness :
    (registerEventHandler "r" "t" emptyStore (some "ghost")
      ⟨some "not-an-email", some "Jane Doe", none⟩).1 = .err 400 "INVALID_EMAIL" :=
  invalid_email_wins_over_missing_event "r" "t" emptyStore "ghost"
    "not-an-email" "Jane Doe" none (by decide) (by decide) (by decide) rfl

/-- C7 as stated is false on the code: a request whose email fails the
pattern but whose `attendeeName` is missing is answered `INVALID_REQUEST`
(the required-fields check runs first), not `INVALID_EMAIL`. -/
theorem invalid_email_missing_name_cx :
    validateEmail "not-an-email" = false ∧
    (registerEventHandler "r" "t" emptyStore (some "e1")
      ⟨some "not-an-email", none, none⟩).1 = .err 400 "INVALID_REQUEST" ∧
    (registerEventHandler "r" "t" emptyStore (some "e1")
      ⟨some "not-an-email", none, none⟩).1 ≠ .err 400 "INVALID_EMAIL" := by
  refine ⟨by decide, by decide, by decide⟩

/-- C7 (amended): for a register request with both required fields present
(non-empty) whose email fails the pattern, the result is `INVALID_EMAIL`, the
store is returned unchanged, and the trace of store operations is empty — no
read or write of any kind is performed. -/
theorem invalid_email_no_store_access
    (registrationId registeredAt : String) (store : Store)
    (eid email name : String) (gs : Option Int)
    (hemail : email ≠ "") (hname : name ≠ "")
    (hbad : validateEmail email = false) :
    registerEventHandler registrationId registeredAt store (some eid)
      ⟨some email, some name, gs⟩ = (.err 400 "INVALID_EMAIL", store, []) := by
  have hbe : (email == "") = false := beq_eq_false_iff_ne.mpr hemail
  have hbn : (name == "") = false := beq_eq_false_iff_ne.mpr hname
  simp [registerEventHandler, falsy, hbe, hbn, hbad]

/-- Witness for the amended C7 at a concrete input (the spec's example
payload `attendeeEmail = "not-an-email"`). -/
theorem invalid_email_no_store_access_witness :
    registerEventHandler "r" "t" emptyStore (some "e1")
      ⟨some "not-an-email", some "Jane Doe", some 2⟩ =
    (.err 400 "INVALID_EMAIL", emptyStore, []) :=
  invalid_email_no_store_access "r" "t" emptyStore "e1" "not-an-email"
    "Jane Doe" (some 2) (by decide) (by decide) (by decide)

/-- C5: an otherwise-valid register request (fields valid, event present, no
duplicate hit) with `registered + groupSize > max` is rejected — `EVENT_FULL`
when `registered ≥ max` already holds, `INSUFFICIENT_CAPACITY` otherwise —
and the store is handed back unchanged. -/
theorem over_capacity_rejected_unchanged
    (registrationId registeredAt : String) (store : Store)
    (eid email name : String) (gs : Int) (ev : Event)
    (hget : getEvent store eid = some ev)
    (hdup : checkDuplicateRegistration store eid email = false)
    (hemail : validateEmail email = true)
    (hname : jsTrim name ≠ "")
    (hgs : 1 ≤ gs)
    (hover : ev.capacity.max < ev.capacity.registered + gs) :
    (registerEventHandler registrationId registeredAt store (some eid)
        ⟨some email, some name, some gs⟩).1 =
      .err 400 (if ev.capacity.registered ≥ ev.capacity.max then "EVENT_FULL"
                else "INSUFFICIENT_CAPACITY") ∧
    (registerEventHandler registrationId registeredAt store (some eid)
        ⟨some email, some name, some gs⟩).2.1 = store := by
  have hemail0 : email ≠ "" := by
    intro h; rw [h] at hemail; exact absurd hemail (by decide)
  have hname0 : name ≠ "" := by
    intro h; rw [h] at hname; exact hname rfl
  have hbe : (email == "") = false := beq_eq_false_iff_ne.mpr hemail0
  have hbn : (name == "") = false := beq_eq_false_iff_ne.mpr hname0
  have hbt : (jsTrim name == "") = false := beq_eq_false_iff_ne.mpr hname
  have hgs2 : ¬(gs < 1) := by omega
  have hcap : ev.capacity.registered + gs > ev.capacity.max := hover
  by_cases hfull : ev.capacity.registered ≥ ev.capacity.max
  · constructor <;>
      simp [registerEventHandler, falsy, hbe, hbn, hemail, hbt, hgs2, hget,
        hdup, hfull]
  · constructor <;>
      simp [registerEventHandler, registerForEvent, falsy, hbe, hbn, hemail,
        hbt, hgs2, hget, hdup, hfull, hcap]

/-- An event at full capacity `max = 5, registered = 5`. -/
def evFull5 : Event :=
  ⟨"e5", "Full event", "D", "2025-01-01", ⟨"business", "Business", "#111"⟩,
    ⟨5, 5⟩, ⟨0⟩, ⟨.physical, some "addr"⟩⟩

/-- An event with two free slots, `max = 10, registered = 8`. -/
def evCap8 : Event :=
  ⟨"e8", "Nearly full", "D", "2025-01-02", ⟨"technology", "Technology", "#222"⟩,
    ⟨10, 8⟩, ⟨0⟩, ⟨.online, none⟩⟩

/-- Table holding `evFull5` and `evCap8`, with no registrations. -/
def stCap : Store := ⟨[evFull5, evCap8], []⟩

/-- Witness for C5: the spec's example — `groupSize = 3` against
`max = 10, registered = 8` — yields `INSUFFICIENT_CAPACITY` and leaves the
store untouched. -/
theorem over_capacity_rejected_unchanged_witness :
    (registerEventHandler "r" "t" stCap (some "e8")
        ⟨some "a@b.co", some "Ann", some 3⟩).1 =
      .err 400 (if evCap8.capacity.registered ≥ evCap8.capacity.max then "EVENT_FULL"
                else "INSUFFICIENT_CAPACITY") ∧
    (registerEventHandler "r" "t" stCap (some "e8")
        ⟨some "a@b.co", some "Ann", some 3⟩).2.1 = stCap :=
  over_capacity_rejected_unchanged "r" "t" stCap "e8" "a@b.co" "Ann" 3 evCap8
    (by decide) (by decide) (by decide) (by decide) (by decide) (by decide)

/-- C6: when the conditional update's guard fails (the store's `registered`
no longer equals the `R0` the request read), `registerForEvent` terminates
with the capacity-contention error and performs no retry: its whole store
trace is the single read and the single conditional update — no second read,
no second update, no registration write. -/
theorem cas_failure_terminal_no_retry
    (registrationId registeredAt : String) (store0 storeCAS : Store)
    (putOk : Bool) (eid email name : String) (gs : Int) (ev evCAS : Event)
    (hget : getEvent store0 eid = some ev)
    (hcap : ¬(ev.capacity.registered + gs > ev.capacity.max))
    (hgetCAS : getEvent storeCAS eid = some evCAS)
    (hguard : evCAS.capacity.registered ≠ ev.capacity.registered) :
    registerForEvent registrationId registeredAt store0 storeCAS putOk
      eid email name gs =
    (.errCapacity, storeCAS, [.get eid, .condUpdate eid]) := by
  simp [registerForEvent, condUpdateCapacity, hget, hcap, hgetCAS, hguard]

/-- State of `evCap8` after a concurrent writer advanced `registered` from 8 to 9. -/
def evCap9 : Event := { evCap8 with capacity := ⟨10, 9⟩ }

/-- State of `stCap` as seen at conditional-update time by a request that read 8. -/
def stCap9 : Store := ⟨[evFull5, evCap9], []⟩

/-- Witness for C6: a request that read `registered = 8` races a writer who
made it 9; its compare-and-swap fails and is terminal. -/
theorem cas_failure_terminal_no_retry_witness :
    registerForEvent "r" "t" stCap stCap9 true "e8" "a@b.co" "Ann" 1 =
    (.errCapacity, stCap9, [.get "e8", .condUpdate "e8"]) :=
  cas_failure_terminal_no_retry "r" "t" stCap stCap9 true "e8" "a@b.co" "Ann" 1
    evCap8 evCap9 (by decide) (by decide) (by decide) (by decide)

/-- C9: when the conditional capacity update succeeds but the subsequent
registration `PutItem` fails, the increment is not rolled back: the outcome
is the propagated put error, the event's `registered` ends at `R0 +
groupSize`, and the registration records are exactly those of the store
before the request — capacity spent with no corresponding record. -/
theorem capacity_not_rolled_back
    (registrationId registeredAt : String) (store0 storeCAS : Store)
    (eid email name : String) (gs : Int) (ev evCAS : Event)
    (hget : getEvent store0 eid = some ev)
    (hcap : ¬(ev.capacity.registered + gs > ev.capacity.max))
    (hgetCAS : getEvent storeCAS eid = some evCAS)
    (hguard : evCAS.capacity.registered = ev.capacity.registered) :
    (registerForEvent registrationId registeredAt store0 storeCAS false
        eid email name gs).1 = .errPut ∧
    getEvent (registerForEvent registrationId registeredAt store0 storeCAS false
        eid email name gs).2.1 eid =
      some { evCAS with capacity :=
        { evCAS.capacity with registered := ev.capacity.registered + gs } } ∧
    (registerForEvent registrationId registeredAt store0 storeCAS false
        eid email name gs).2.1.regs = storeCAS.regs ∧
    (registerForEvent registrationId registeredAt store0 storeCAS false
        eid email name gs).2.2 =
      [.get eid, .condUpdate eid, .put eid registrationId] := by
  have hrun : registerForEvent registrationId registeredAt store0 storeCAS false
      eid email name gs =
      (.errPut,
       setEventItem storeCAS { evCAS with capacity :=
         { evCAS.capacity with registered := ev.capacity.registered + gs } },
       [.get eid, .condUpdate eid, .put eid registrationId]) := by
    simp [registerForEvent, condUpdateCapacity, hget, hcap, hgetCAS, hguard]
  refine ⟨by rw [hrun], ?_, by rw [hrun]; rfl, by rw [hrun]⟩
  rw [hrun]
  exact getEvent_setEventItem storeCAS eid evCAS _ rfl hgetCAS

/-- Witness for C9: the put fails after a successful capacity update on
`evCap8`; `registered` stays at 9 and no registration record exists. -/
theorem capacity_not_rolled_back_witness :
    (registerForEvent "r" "t" stCap stCap false "e8" "a@b.co" "Ann" 1).1 =
      .errPut ∧
    getEvent (registerForEvent "r" "t" stCap stCap false
        "e8" "a@b.co" "Ann" 1).2.1 "e8" =
      some { evCap8 with capacity :=
        { evCap8.capacity with registered := evCap8.capacity.registered + 1 } } ∧
    (registerForEvent "r" "t" stCap stCap false "e8" "a@b.co" "Ann" 1).2.1.regs =
      stCap.regs ∧
    (registerForEvent "r" "t" stCap stCap false "e8" "a@b.co" "Ann" 1).2.2 =
      [.get "e8", .condUpdate "e8", .put "e8" "r"] :=
  capacity_not_rolled_back "r" "t" stCap stCap "e8" "a@b.co" "Ann" 1
    evCap8 evCap8 (by decide) (by decide) (by decide) rfl

lemma getEvent_putRegistration (store : Store) (eid x : String)
    (reg : Registration) :
    getEvent (putRegistration store eid reg) x = getEvent store x := rfl

/-- C4: against a fresh event with `max = 1, registered = 0` and no
registration records, two strictly sequential register requests with the same
email: the first succeeds, and on the store it leaves behind the second is
rejected with `DUPLICATE_REGISTRATION`. -/
theorem sequential_duplicate_rejected
    (regId1 regAt1 regId2 regAt2 : String) (store : Store)
    (eid email name : String) (ev : Event)
    (hget : getEvent store eid = some ev)
    (hmax : ev.capacity.max = 1) (hreg : ev.capacity.registered = 0)
    (hnoreg : regsInPartition store.regs eid = [])
    (hemail : validateEmail email = true)
    (hname : jsTrim name ≠ "") :
    ((registerEventHandler regId1 regAt1 store (some eid)
        ⟨some email, some name, none⟩).1).isOk = true ∧
    (registerEventHandler regId2 regAt2
        (registerEventHandler regId1 regAt1 store (some eid)
          ⟨some email, some name, none⟩).2.1
        (some eid) ⟨some email, some name, none⟩).1 =
      .err 400 "DUPLICATE_REGISTRATION" := by
  have hemail0 : email ≠ "" := by
    intro h; rw [h] at hemail; exact absurd hemail (by decide)
  have hname0 : name ≠ "" := by
    intro h; rw [h] at hname; exact hname rfl
  have hbe : (email == "") = false := beq_eq_false_iff_ne.mpr hemail0
  have hbn : (name == "") = false := beq_eq_false_iff_ne.mpr hname0
  have hbt : (jsTrim name == "") = false := beq_eq_false_iff_ne.mpr hname
  have hdup1 : checkDuplicateRegistration store eid email = false := by
    simp [checkDuplicateRegistration, hnoreg]
  have hfull1 : ¬(ev.capacity.registered ≥ ev.capacity.max) := by
    rw [hreg, hmax]; decide
  have hcapOK : ¬(ev.capacity.registered + 1 > ev.capacity.max) := by
    rw [hreg, hmax]; decide
  have hrun1 : registerEventHandler regId1 regAt1 store (some eid)
      ⟨some email, some name, none⟩ =
      (.ok regId1
        { ev with capacity :=
          { ev.capacity with registered := ev.capacity.registered + 1 } }
        email name 1 regAt1,
       putRegistration (setEventItem store
          { ev with capacity :=
            { ev.capacity with registered := ev.capacity.registered + 1 } })
         eid ⟨regId1, email, name, 1, regAt1⟩,
       [.get eid, .query eid, .get eid, .condUpdate eid, .put eid regId1]) := by
    simp [registerEventHandler, registerForEvent, condUpdateCapacity, falsy,
      hbe, hbn, hemail, hbt, hget, hdup1, hfull1, hcapOK]
  have hget2 : getEvent (putRegistration (setEventItem store
      { ev with capacity :=
        { ev.capacity with registered := ev.capacity.registered + 1 } })
      eid ⟨regId1, email, name, 1, regAt1⟩) eid =
      some { ev with capacity :=
        { ev.capacity with registered := ev.capacity.registered + 1 } } := by
    rw [getEvent_putRegistration]
    exact getEvent_setEventItem store eid ev _ rfl hget
  have hregs2 : regsInPartition
      (insertReg store.regs eid ⟨regId1, email, name, 1, regAt1⟩) eid =
      [⟨regId1, email, name, 1, regAt1⟩] :=
    regsInPartition_insertReg_nil store.regs eid _ hnoreg
  have hdup2 : checkDuplicateRegistration (putRegistration (setEventItem store
      { ev with capacity :=
        { ev.capacity with registered := ev.capacity.registered + 1 } })
      eid ⟨regId1, email, name, 1, regAt1⟩) eid email = true := by
    simp [checkDuplicateRegistration, putRegistration, setEventItem, hregs2]
  constructor
  · rw [hrun1]
    rfl
  · rw [hrun1]
    simp [registerEventHandler, falsy, hbe, hbn, hemail, hbt, hget2, hdup2]

/-- A fresh event with exactly one slot, `max = 1, registered = 0`. -/
def evOne : Event :=
  ⟨"e4", "One slot", "D", "2025-01-03", ⟨"design", "Design", "#333"⟩,
    ⟨1, 0⟩, ⟨0⟩, ⟨.online, none⟩⟩

/-- Table holding only `evOne`, with no registrations. -/
def stOne : Store := ⟨[evOne], []⟩

/-- Witness for C4 at a concrete input. -/
theorem sequential_duplicate_rejected_witness :
    ((registerEventHandler "r1" "t1" stOne (some "e4")
        ⟨some "a@b.co", some "Ann", none⟩).1).isOk = true ∧
    (registerEventHandler "r2" "t2"
        (registerEventHandler "r1" "t1" stOne (some "e4")
          ⟨some "a@b.co", some "Ann", none⟩).2.1
        (some "e4") ⟨some "a@b.co", some "Ann", none⟩).1 =
      .err 400 "DUPLICATE_REGISTRATION" :=
  sequential_duplicate_rejected "r1" "t1" "r2" "t2" stOne "e4" "a@b.co" "Ann"
    evOne rfl rfl rfl rfl (by decide) (by decide)

lemma mem_of_filterCategory (c? : Option String) (l : List Event) (e : Event)
    (h : e ∈ filterCategory c? l) : e ∈ l := by
  cases c? with
  | none => exact h
  | some c =>
      simp only [filterCategory] at h
      split at h
      · exact h
      · exact List.mem_of_mem_filter h

lemma filterCategory_id (c : String) (l : List Event) (e : Event) (hc : c ≠ "")
    (h : e ∈ filterCategory (some c) l) : e.category.id = c := by
  simp only [filterCategory] at h
  rw [if_neg (by simp [hc])] at h
  have := (List.mem_filter.mp h).2
  simpa using this

lemma mem_of_filterSearch (s? : Option String) (l : List Event) (e : Event)
    (h : e ∈ filterSearch s? l) : e ∈ l := by
  cases s? with
  | none => exact h
  | some s =>
      simp only [filterSearch] at h
      split at h
      · exact h
      · exact List.mem_of_mem_filter h

lemma mem_of_filterStatus (st? : Option String) (l : List Event) (e : Event)
    (h : e ∈ filterStatus st? l) : e ∈ l := by
  cases st? with
  | none => exact h
  | some st =>
      simp only [filterStatus] at h
      split at h
      · exact List.mem_of_mem_filter h
      · split at h
        · exact List.mem_of_mem_filter h
        · exact h

lemma filterStatus_available (l : List Event) (e : Event)
    (h : e ∈ filterStatus (some "available") l) :
    e.capacity.registered < e.capacity.max := by
  simp only [filterStatus] at h
  rw [if_pos (by decide)] at h
  have := (List.mem_filter.mp h).2
  simpa using this

/-- C8: every event a `listEvents` page returns passed the in-memory filters
— with a (non-falsy) category filter every returned event's category id
equals it, with `status = "available"` every returned event has
`registered < max` — and `total` is the length of the returned page itself,
not a global count. -/
theorem listEvents_filters_and_total (params : ListEventsParams)
    (scan : ScanResult) :
    (∀ c, params.category = some c → c ≠ "" →
      ∀ e ∈ (listEvents params scan).events, e.category.id = c) ∧
    (params.status = some "available" →
      ∀ e ∈ (listEvents params scan).events,
        e.capacity.registered < e.capacity.max) ∧
    (listEvents params scan).total = (listEvents params scan).events.length := by
  refine ⟨?_, ?_, rfl⟩
  · intro c hc hcne e he
    have h1 : e ∈ applyFilters params scan.items :=
      List.take_subset (effectiveLimit params.limit) (applyFilters params scan.items)
        (by simpa [listEvents] using he)
    simp only [applyFilters] at h1
    have h2 := mem_of_filterSearch _ _ _ (mem_of_filterStatus _ _ _ h1)
    rw [hc] at h2
    exact filterCategory_id c scan.items e hcne h2
  · intro hst e he
    have h1 : e ∈ applyFilters params scan.items :=
      List.take_subset (effectiveLimit params.limit) (applyFilters params scan.items)
        (by simpa [listEvents] using he)
    simp only [applyFilters] at h1
    rw [hst] at h1
    exact filterStatus_available _ e h1

/-- Filter parameters of the C8 witness: technology category, available
status. -/
def pWit : ListEventsParams := ⟨some "technology", none, some "available", some 25, none⟩

/-- Scan buffer of the C8 witness: a full business event and an available
technology event. -/
def sWit : ScanResult := ⟨[evFull5, evCap8], none⟩

/-- Witness for C8: the technology/available event is on the page and has the
filtered properties, and `total` equals the page length. -/
theorem listEvents_filters_and_total_witness :
    evCap8 ∈ (listEvents pWit sWit).events ∧
    evCap8.category.id = "technology" ∧
    evCap8.capacity.registered < evCap8.capacity.max ∧
    (listEvents pWit sWit).total = (listEvents pWit sWit).events.length := by
  have hmem : evCap8 ∈ (listEvents pWit sWit).events := by decide
  exact ⟨hmem,
    (listEvents_filters_and_total pWit sWit).1 "technology" rfl (by decide)
      evCap8 hmem,
    (listEvents_filters_and_total pWit sWit).2.1 rfl evCap8 hmem,
    (listEvents_filters_and_total pWit sWit).2.2⟩

/-- Pagination parameters of the C3 counterexample: `limit = 1`, no filters,
first page. -/
def pTok : ListEventsParams := ⟨none, none, none, some 1, none⟩

/-- Scan outcome of the C3 counterexample: two metadata records and no
`LastEvaluatedKey` (the scan finished the table). -/
def sTok : ScanResult := ⟨[evFull5, evCap8], none⟩

/-- C3 as stated is false on the code: with `limit = 1` the filtered buffer
holds 2 events — more than `limit` — while the scan reports no further items;
the code returns NO continuation token (`hasMore && LastEvaluatedKey` is
false because `LastEvaluatedKey` is absent), so the page holds one event and
the second is unreachable. -/
theorem dropped_tail_no_token_cx :
    effectiveLimit pTok.limit = 1 ∧
    (applyFilters pTok sTok.items).length = 2 ∧
    sTok.lastKey = none ∧
    (listEvents pTok sTok).lastKey = none ∧
    (listEvents pTok sTok).events.length = 1 := by
  refine ⟨rfl, by decide, rfl, by decide, by decide⟩

/-- C3 (amended): the continuation token of `listEvents` is exactly the
scan's `LastEvaluatedKey` — present iff the underlying scan reports more
unretrieved items.  The state of the local over-fetch buffer never produces a
token by itself: events filtered into the buffer beyond `limit` are dropped
when the scan reports no further items. -/
theorem lastKey_passthrough (params : ListEventsParams) (scan : ScanResult) :
    (listEvents params scan).lastKey = scan.lastKey := by
  cases h : scan.lastKey with
  | none => simp [listEvents, h]
  | some k => simp [listEvents, h]

/-- First registration record (in sort-key order) of the C10 store. -/
def recFirst : Registration := ⟨"a", "first@x.io", "First", 1, "t0"⟩

/-- Second registration record of the C10 store: the prior registration of
the duplicate email, NOT first in sort-key order. -/
def recDup : Registration := ⟨"b", "dup@x.io", "Dup", 1, "t0"⟩

/-- An event with plenty of capacity for the C10 scenario. -/
def evTen : Event :=
  ⟨"e1", "Big event", "D", "2025-01-04", ⟨"marketing", "Marketing", "#444"⟩,
    ⟨10, 2⟩, ⟨0⟩, ⟨.physical, some "addr"⟩⟩

/-- C10 store: the partition of `evTen` holds `recFirst` (sort key
`REGISTRATION#a`) before `recDup` (sort key `REGISTRATION#b`). -/
def stTwoRegs : Store := ⟨[evTen], [("e1", recFirst), ("e1", recDup)]⟩

/-- C10: `checkDuplicateRegistration` queries with `Limit: 1` and a
post-limit email filter, so it examines only the partition's first
registration record; on a store whose matching prior registration is not
first in sort-key order it answers `false`, and the strictly sequential
duplicate register request is accepted instead of rejected with
`DUPLICATE_REGISTRATION`. -/
theorem limit_one_duplicate_miss :
    (regsInPartition stTwoRegs.regs "e1").any
      (fun r => r.attendeeEmail == "dup@x.io") = true ∧
    checkDuplicateRegistration stTwoRegs "e1" "dup@x.io" = false ∧
    (registerEventHandler "c" "t3" stTwoRegs (some "e1")
      ⟨some "dup@x.io", some "Dana", none⟩).1.isOk = true := by
  refine ⟨by decide, by decide, by decide⟩

end EventsApi

